import Mathlib

/-!
Shallow embedding of the query analysis and translation engine of
`distributary-mysql` (`src/utils.rs`, with shared state from `src/main.rs`).

Rust panics (`panic!`, `assert!`, `unimplemented!`, `unreachable!`,
`Option::unwrap`/`expect`) are modelled as `Except Err` error results;
the Rust `HashSet` working set of the condition-tree flattener is modelled
as an insertion-ordered duplicate-free list (Rust's iteration order over a
`HashSet` is unspecified; insertion order is one admissible determinization,
and every concrete input used below keeps at most one candidate tuple alive
so the choice is immaterial there).
-/

/-- `noria::DataType`, restricted to the variants the shim's literal
conversion produces for the literals modelled here. -/
inductive DataType where
  | int : Int → DataType
  | text : String → DataType
  | none : DataType
deriving DecidableEq, Repr

/-- `nom_sql::Literal` (the variants used by `utils.rs`). -/
inductive Lit where
  | int : Int → Lit
  | str : String → Lit
  | null : Lit
  | placeholder : Lit
deriving DecidableEq, Repr

/-- Error outcomes standing for the Rust panics / `unimplemented!` /
`unreachable!` / failed `assert!`s and `expect`s in `utils.rs`. -/
inductive Err where
  | nonKeyPredicate
  | incompleteCompoundKey
  | unsupportedLiteral
  | unsupportedCondition
  | duplicateWhereColumn
  | placeholderInAdHoc
  | parameterUnderflow
  | fancyUpdate
  | unsupportedSet
  | setColumnMismatch
  | updateWithoutWhere
  | missingKeyColumn
  | insertShapeMismatch
  | unsupportedStatementKind
deriving DecidableEq, Repr

/-- `DataType::from(&Literal)`: converting a placeholder literal to a value
is not supported (a panic in the conversion layer). -/
def dtOfLit : Lit → Except Err DataType
  | .int n => .ok (.int n)
  | .str s => .ok (.text s)
  | .null => .ok .none
  | .placeholder => .error .unsupportedLiteral

/-- `nom_sql::Column`; per the data model its identity for matching is
(table, name), which is what structural equality here compares. -/
structure Column where
  table : Option String
  name : String
deriving DecidableEq, Repr

/-- `nom_sql::ConditionBase`. -/
inductive ConditionBase where
  | field : Column → ConditionBase
  | literal : Lit → ConditionBase
  | literalList : List Lit → ConditionBase
deriving DecidableEq, Repr

/-- `nom_sql::Operator` (the variants `utils.rs` inspects, plus
representatives of the rest). -/
inductive Op where
  | equal
  | less
  | greater
  | inOp
  | andOp
  | orOp
deriving DecidableEq, Repr

/-- `nom_sql::ConditionExpression` (a `ConditionTree` is inlined as the
operator plus the two boxed children). -/
inductive CondExpr where
  | comparisonOp : Op → CondExpr → CondExpr → CondExpr
  | logicalOp : Op → CondExpr → CondExpr → CondExpr
  | negationOp : CondExpr → CondExpr
  | bracketed : CondExpr → CondExpr
  | base : ConditionBase → CondExpr
deriving DecidableEq, Repr

/-- A partially built key tuple: pairs of column name and value, in the
order the slots were filled (`Vec<(String, DataType)>`). -/
abbrev KeyTuple := List (String × DataType)

/-- The working set `HashSet<Vec<(String, DataType)>>`, as an
insertion-ordered duplicate-free list. -/
abbrev KeySet := List KeyTuple

/-- `HashSet::insert`: a no-op when the element is already present,
otherwise the element is added (here: appended). -/
def insertKey (k : KeyTuple) (s : KeySet) : KeySet :=
  if k ∈ s then s else s ++ [k]

/-- `HashSet::remove` of one element. -/
def removeKey (k : KeyTuple) (s : KeySet) : KeySet :=
  s.erase k

/-- The leaf case of `do_flatten_conditional` for `Field(c) = Literal(l)`
(either orientation): fatal if `c` is outside the primary key, otherwise
fill the first tuple that still has an open slot and no value for `c`,
or start a fresh singleton tuple. -/
def flattenLeaf (c : Column) (l : Lit) (pkey : List Column) (s : KeySet) :
    Except Err (Bool × KeySet) := do
  if c ∈ pkey then
    let value ← dtOfLit l
    match s.find? (fun key =>
        decide (key.length < pkey.length) &&
          !(key.any (fun p => p.1 == c.name))) with
    | some key =>
        let s' := removeKey key s
        .ok (true, insertKey (key ++ [(c.name, value)]) s')
    | Option.none => .ok (true, insertKey [(c.name, value)] s)
  else
    .error .nonKeyPredicate

/-- `do_flatten_conditional` from `src/utils.rs`: walks the condition tree,
returning the validity flag together with the updated working set.  The
`&&` chaining of the Rust source short-circuits: an invalid left child
stops the walk without visiting the right child. -/
def do_flatten_conditional (cond : CondExpr) (pkey : List Column) (s : KeySet) :
    Except Err (Bool × KeySet) :=
  match cond with
  | .comparisonOp .equal (.base (.literal l)) (.base (.field c)) =>
      flattenLeaf c l pkey s
  | .comparisonOp .equal (.base (.field c)) (.base (.literal l)) =>
      flattenLeaf c l pkey s
  | .comparisonOp .equal (.base (.literal l)) (.base (.literal r)) =>
      if l = r then .ok (true, s) else .ok (false, s)
  | .logicalOp .andOp l r => do
      let preCount := s.length
      let (vl, s1) ← do_flatten_conditional l pkey s
      if vl then
        let count := s1.length
        let (vr, s2) ← do_flatten_conditional r pkey s1
        .ok (vr && (decide (preCount = s2.length) || decide (count = s2.length)), s2)
      else
        .ok (false, s1)
  | .logicalOp .orOp l r => do
      let (vl, s1) ← do_flatten_conditional l pkey s
      if vl then do_flatten_conditional r pkey s1
      else .ok (false, s1)
  | _ => .ok (false, s)

/-- `flatten_conditional` from `src/utils.rs`: `None` when the tree is not
reducible to key tuples; fatal when a resulting tuple does not cover the
whole primary key. -/
def flatten_conditional (cond : CondExpr) (pkey : List Column) :
    Except Err (Option (List (List DataType))) := do
  let (valid, flattened) ← do_flatten_conditional cond pkey []
  if valid then
    let keys ← flattened.mapM (fun key =>
      if key.length = pkey.length then .ok (key.map Prod.snd)
      else .error Err.incompleteCompoundKey)
    .ok (some keys)
  else
    .ok Option.none

/-- `nom_sql::ColumnConstraint` (the variant `get_primary_key` inspects,
plus a representative of the others). -/
inductive ColumnConstraint where
  | primaryKey
  | notNull
deriving DecidableEq, Repr

/-- One entry of `CreateTableStatement::fields`. -/
structure ColumnSpecification where
  column : Column
  constraints : List ColumnConstraint
deriving DecidableEq, Repr

/-- `nom_sql::TableKey` (the variant `get_primary_key` inspects, plus a
representative of the others). -/
inductive TableKey where
  | primaryKey : List Column → TableKey
  | uniqueKey : List Column → TableKey
deriving DecidableEq, Repr

/-- `nom_sql::CreateTableStatement` (the parts `utils.rs` reads). -/
structure CreateTableStatement where
  fields : List ColumnSpecification
  keys : Option (List TableKey)
deriving DecidableEq, Repr

/-- `get_primary_key` from `src/utils.rs`: schema fields, in declaration
order, that carry an inline PRIMARY KEY constraint or appear in a
`TableKey::PrimaryKey` clause. -/
def get_primary_key (schema : CreateTableStatement) : List (Nat × Column) :=
  (schema.fields.enum.filter (fun p =>
    p.2.constraints.contains ColumnConstraint.primaryKey ||
      (match schema.keys with
       | some keys => keys.any (fun key =>
           match key with
           | .primaryKey cols => cols.any (fun c => c == p.2.column)
           | _ => false)
       | Option.none => false))).map (fun p => (p.1, p.2.column))

/-- `nom_sql::LiteralExpression`. -/
structure LiteralExpression where
  value : Lit
  «alias» : Option String
deriving DecidableEq, Repr

/-- `nom_sql::ArithmeticOperator`. -/
inductive ArithmeticOperator where
  | add
  | subtract
  | multiply
  | divide
deriving DecidableEq, Repr

/-- `nom_sql::ArithmeticBase`. -/
inductive ArithmeticBase where
  | column : Column → ArithmeticBase
  | scalar : Lit → ArithmeticBase
deriving DecidableEq, Repr

/-- `nom_sql::ArithmeticExpression`. -/
structure ArithmeticExpression where
  op : ArithmeticOperator
  left : ArithmeticBase
  right : ArithmeticBase
  «alias» : Option String
deriving DecidableEq, Repr

/-- `nom_sql::FieldValueExpression`. -/
inductive FieldValueExpression where
  | literal : LiteralExpression → FieldValueExpression
  | arithmetic : ArithmeticExpression → FieldValueExpression
deriving DecidableEq, Repr

/-- `nom_sql::SelectStatement` (the part `utils.rs` reads). -/
structure SelectStatement where
  where_clause : Option CondExpr
deriving DecidableEq, Repr

/-- `nom_sql::InsertStatement` (the parts `utils.rs` reads). -/
structure InsertStatement where
  fields : Option (List Column)
  data : List (List Lit)
deriving DecidableEq, Repr

/-- `nom_sql::UpdateStatement` (the parts `utils.rs` reads). -/
structure UpdateStatement where
  fields : List (Column × FieldValueExpression)
  where_clause : Option CondExpr
deriving DecidableEq, Repr

/-- `nom_sql::SqlQuery` (the variants `get_parameter_columns` handles,
plus a representative of the rest). -/
inductive SqlQuery where
  | select : SelectStatement → SqlQuery
  | insert : InsertStatement → SqlQuery
  | update : UpdateStatement → SqlQuery
  | createTable : CreateTableStatement → SqlQuery
deriving DecidableEq, Repr

/-- `get_parameter_columns_recurse` from `src/utils.rs`: columns bound to
placeholders in a WHERE tree, left-to-right.  An equality of a field
against a placeholder (either orientation) yields the field; an `IN`
against an all-placeholder literal list yields the field once per list
element; other field/literal and field/field comparisons yield nothing;
`AND`/`OR` concatenate left then right; negation and brackets recurse;
anything else is a fatal `unimplemented!`. -/
def get_parameter_columns_recurse (cond : CondExpr) : Except Err (List Column) :=
  match cond with
  | .comparisonOp .equal (.base (.field c)) (.base (.literal .placeholder)) =>
      .ok [c]
  | .comparisonOp .equal (.base (.literal .placeholder)) (.base (.field c)) =>
      .ok [c]
  | .comparisonOp .inOp (.base (.field c)) (.base (.literalList literals)) =>
      if literals.all (fun l => l == Lit.placeholder) then
        .ok (List.replicate literals.length c)
      else
        .error .unsupportedCondition
  | .comparisonOp _ (.base (.field _)) (.base (.literal _)) => .ok []
  | .comparisonOp _ (.base (.literal _)) (.base (.field _)) => .ok []
  | .comparisonOp _ (.base (.field _)) (.base (.field _)) => .ok []
  | .logicalOp .andOp left right => do
      let l ← get_parameter_columns_recurse left
      let r ← get_parameter_columns_recurse right
      .ok (l ++ r)
  | .logicalOp .orOp left right => do
      let l ← get_parameter_columns_recurse left
      let r ← get_parameter_columns_recurse right
      .ok (l ++ r)
  | .negationOp expr => get_parameter_columns_recurse expr
  | .bracketed expr => get_parameter_columns_recurse expr
  | _ => .error .unsupportedCondition

/-- `get_parameter_columns` from `src/utils.rs`. -/
def get_parameter_columns (query : SqlQuery) : Except Err (List Column) :=
  match query with
  | .select q =>
      match q.where_clause with
      | some wc => get_parameter_columns_recurse wc
      | Option.none => .ok []
  | .insert q =>
      if h : q.data.length = 1 then
        match q.fields with
        | some fields =>
            (q.data.get ⟨0, by omega⟩).enum.filterMapM (fun p =>
              match p.2 with
              | Lit.placeholder =>
                  match fields.get? p.1 with
                  | some c => .ok (some c)
                  | Option.none => .error Err.insertShapeMismatch
              | _ => .ok Option.none)
        | Option.none => .error .insertShapeMismatch
      else
        .error .insertShapeMismatch
  | .update q => do
      let fieldParams := q.fields.filterMap (fun f =>
        match f.2 with
        | .literal ⟨Lit.placeholder, Option.none⟩ => some f.1
        | _ => Option.none)
      let whereParams ← match q.where_clause with
        | some wc => get_parameter_columns_recurse wc
        | Option.none => .ok []
      .ok (fieldParams ++ whereParams)
  | _ => .error .unsupportedStatementKind

/-- `noria::Operation` (the two variants the extractor produces). -/
inductive Operation where
  | add
  | sub
deriving DecidableEq, Repr

/-- `noria::Modification`. -/
inductive Modification where
  | set : DataType → Modification
  | apply : Operation → DataType → Modification
deriving DecidableEq, Repr

/-- The bound-parameter stream: `None` for an ad-hoc (unparameterized)
execution, `Some vs` for an EXECUTE with values `vs`, consumed head first. -/
abbrev Params := Option (List DataType)

/-- `params.as_mut().expect(..).next().expect(..)`: take the next bound
value or fail (`None` stream, or stream exhausted). -/
def nextParam (params : Params) : Except Err (DataType × Params) :=
  match params with
  | Option.none => .error .placeholderInAdHoc
  | some [] => .error .parameterUnderflow
  | some (v :: vs) => .ok (v, some vs)

/-- `Vec::swap_remove(i)`: replace element `i` with the last element and
pop the last element.  (The source only calls it with an in-bounds index
obtained from `position`.) -/
def swapRemove (l : List α) (i : Nat) : List α :=
  match l.getLast? with
  | Option.none => l
  | some last => (l.set i last).dropLast

/-- One `SET` entry's right-hand side, processed for schema field `field`
exactly as in the `match q.fields.swap_remove(sets).1` of
`extract_update_params_and_fields`: bare placeholder consumes the next
parameter; bare literal becomes an absolute `Set`; `column ± scalar` with
the column equal to the schema field becomes an `Apply`; everything else
is fatal. -/
def processSetEntry (field : ColumnSpecification) (fv : FieldValueExpression)
    (params : Params) : Except Err (Modification × Params) :=
  match fv with
  | .literal ⟨Lit.placeholder, Option.none⟩ => do
      let (v, params') ← nextParam params
      .ok (.set v, params')
  | .literal ⟨v, Option.none⟩ => do
      let d ← dtOfLit v
      .ok (.set d, params)
  | .arithmetic ⟨op, .column c, .scalar l, Option.none⟩ => do
      if c = field.column then
        let d ← dtOfLit l
        match op with
        | .add => .ok (.apply .add d, params)
        | .subtract => .ok (.apply .sub d, params)
        | _ => .error .unsupportedSet
      else
        .error .setColumnMismatch
  | _ => .error .unsupportedSet

/-- `Iterator::position` plus indexing, in one pass: the index of the first
`SET` entry whose column name equals `name`, together with that entry. -/
def findSetEntry (name : String) :
    List (Column × FieldValueExpression) →
      Option (Nat × (Column × FieldValueExpression))
  | [] => Option.none
  | f :: rest =>
      if f.1.name == name then some (0, f)
      else (findSetEntry name rest).map (fun p => (p.1 + 1, p.2))

/-- The schema-field loop of `extract_update_params_and_fields`, recursing
over the remaining schema fields with `i` the index of the next one;
`qfields` is the statement's (mutated) `SET` list and `params` the open
parameter stream. -/
def extractLoop (i : Nat) (schemaFields : List ColumnSpecification)
    (qfields : List (Column × FieldValueExpression)) (params : Params) :
    Except Err (List (Nat × Modification) × List (Column × FieldValueExpression) × Params) :=
  match schemaFields with
  | [] => .ok ([], qfields, params)
  | field :: rest =>
      match findSetEntry field.column.name qfields with
      | some (sets, entry) => do
          let qfields' := swapRemove qfields sets
          let (m, params') ← processSetEntry field entry.2 params
          let (updates, qfields'', params'') ← extractLoop (i + 1) rest qfields' params'
          .ok ((i, m) :: updates, qfields'', params'')
      | Option.none => extractLoop (i + 1) rest qfields params

/-- `extract_update_params_and_fields` from `src/utils.rs`: iterate the
schema's fields in declaration order; for each field with a matching `SET`
entry (matched by column name, removed from the statement via
`swap_remove`), emit `(field_index, Modification)`. -/
def extract_update_params_and_fields (q : UpdateStatement) (params : Params)
    (schema : CreateTableStatement) :
    Except Err (List (Nat × Modification) × List (Column × FieldValueExpression) × Params) :=
  extractLoop 0 schema.fields q.fields params

/-- The column-to-value map built by `walk_update_where`
(`HashMap<String, DataType>`), as an association list keyed by column
name. -/
abbrev ColToVal := List (String × DataType)

/-- `walk_update_where` from `src/utils.rs`: the UPDATE path's stricter
WHERE walk.  Only `AND`-joined `Field(c) = Literal` leaves (field on the
left) are supported; a placeholder literal consumes the next parameter;
inserting a column name already present in the map trips
`assert!(oldv.is_none())` and is fatal. -/
def walk_update_where (col2v : ColToVal) (params : Params) (expr : CondExpr) :
    Except Err (ColToVal × Params) :=
  match expr with
  | .comparisonOp .equal (.base (.field c)) (.base (.literal l)) => do
      let (v, params') ←
        match l with
        | Lit.placeholder => nextParam params
        | l => do
            let d ← dtOfLit l
            .ok (d, params)
      if (col2v.find? (fun p => p.1 == c.name)).isSome then
        .error .duplicateWhereColumn
      else
        .ok (col2v ++ [(c.name, v)], params')
  | .logicalOp .andOp left right => do
      let (col2v', params') ← walk_update_where col2v params left
      walk_update_where col2v' params' right
  | _ => .error .fancyUpdate

/-- `HashMap::remove` keyed by column name: the value (if present) plus
the map without that entry. -/
def removeCol (col2v : ColToVal) (name : String) : Option DataType × ColToVal :=
  match col2v.find? (fun p => p.1 == name) with
  | some p => (some p.2, col2v.eraseP (fun q => q.1 == name))
  | Option.none => (Option.none, col2v)

/-- The key-assembly loop of `extract_update`:
`pkey.iter().map(|&(_, c)| col_to_val.remove(&c.name).unwrap())`. -/
def assembleKey (pkey : List (Nat × Column)) (col2v : ColToVal) :
    Except Err (List DataType) :=
  match pkey with
  | [] => .ok []
  | (_, c) :: rest =>
      match removeCol col2v c.name with
      | (some v, col2v') => do
          let vs ← assembleKey rest col2v'
          .ok (v :: vs)
      | (Option.none, _) => .error .missingKeyColumn

/-- `extract_update` from `src/utils.rs`: extract the ordered field
modifications, then walk the (mandatory) WHERE clause with the same open
parameter stream and read the primary key's values back out of the
resulting map, in primary-key order. -/
def extract_update (q : UpdateStatement) (params : Params)
    (schema : CreateTableStatement) :
    Except Err (List DataType × List (Nat × Modification)) := do
  let (updates, _, params') ← extract_update_params_and_fields q params schema
  let pkey := get_primary_key schema
  match q.where_clause with
  | Option.none => .error .updateWithoutWhere
  | some wc => do
      let (col2v, _) ← walk_update_where [] params' wc
      let key ← assembleKey pkey col2v
      .ok (key, updates)

/-- Rust `char::is_whitespace` restricted to the ASCII whitespace the
examples use (space, tab, newline, carriage return). -/
def isWs (c : Char) : Bool :=
  c == ' ' || c == '\t' || c == '\n' || c == '\r'

/-- The `" +" -> " "` regex replacement: collapse every run of spaces to a
single space. -/
def collapseSpaces : List Char → List Char
  | [] => []
  | c :: rest =>
      let r := collapseSpaces rest
      if c == ' ' then
        match r with
        | ' ' :: _ => r
        | _ => c :: r
      else c :: r

/-- `str::trim`. -/
def trimChars (s : List Char) : List Char :=
  ((s.dropWhile isWs).reverse.dropWhile isWs).reverse

/-- `sanitize_query` from `src/utils.rs`.  NOTE (faithful to the source):
the two comment-stripping `replace_all` calls in the `for` loop discard
their results (`pattern.replace_all(&query, replacement);` with the
returned `Cow` dropped and `query` never rebound), so no comment removal
ever takes effect; the observable behaviour is: collapse runs of spaces,
replace `"` by `'`, and trim surrounding whitespace. -/
def sanitize_query (query : String) : String :=
  String.mk (trimChars (collapseSpaces query.toList |>.map
    (fun c => if c == '"' then '\'' else c)))

/-- The sanitizer the spec describes (comments actually stripped before
whitespace collapsing); used to exhibit the divergence of the code from
the spec.  Block comments `/* ... */` are removed (greedily, matching the
`(?s)/\*.*\*/` regex: from the first opener to the last closer) and `--`
line comments are removed up to the end of line, then spaces are
collapsed, `"` replaced by `'`, and the result trimmed. -/
def stripBlockComments (s : List Char) : List Char :=
  let rec findOpen : List Char → Option (List Char × List Char)
    | [] => Option.none
    | '/' :: '*' :: rest => some ([], rest)
    | c :: rest =>
        match findOpen rest with
        | some (pre, post) => some (c :: pre, post)
        | Option.none => Option.none
  let rec lastClose : List Char → Option (List Char)
    | [] => Option.none
    | '*' :: '/' :: rest =>
        match lastClose rest with
        | some t => some t
        | Option.none => some rest
    | _ :: rest => lastClose rest
  match findOpen s with
  | some (pre, post) =>
      match lastClose post with
      | some tail => pre ++ tail
      | Option.none => s
  | Option.none => s

/-- Strip `--` line comments (everything from `--` up to but excluding the
newline, matching the `--.*\n -> "\n"` replacement; the `inComment` flag
says whether we are inside a comment.  A trailing comment with no final
newline is stripped too — a harmless strengthening over the regex, and the
example inputs below all terminate comments with a newline). -/
def stripLineCommentsAux : Bool → List Char → List Char
  | _, [] => []
  | true, c :: rest =>
      if c = '\n' then c :: stripLineCommentsAux false rest
      else stripLineCommentsAux true rest
  | false, '-' :: '-' :: rest => stripLineCommentsAux true rest
  | false, c :: rest => c :: stripLineCommentsAux false rest

/-- Strip `--` line comments, keeping the line-terminating newlines. -/
def stripLineComments (l : List Char) : List Char :=
  stripLineCommentsAux false l

/-- `sanitize_query` as the spec intends it: comments removed, then the
same space collapsing, quote replacement and trimming as the code. -/
def sanitize_query_spec (query : String) : String :=
  String.mk (trimChars ((collapseSpaces (stripLineComments
    (stripBlockComments query.toList))).map
      (fun c => if c == '"' then '\'' else c)))

/-- The `UPDATE` arm of the Parameter Locator as the spec words it:
the `SET` assignments whose right-hand side is a bare placeholder literal,
in `SET`-clause order, concatenated with the WHERE-clause placeholders
found via the same walk as `SELECT`. -/
def locateParametersUpdateSpec (u : UpdateStatement) : Except Err (List Column) := do
  let setCols := u.fields.filterMap (fun f =>
    match f.2 with
    | .literal ⟨Lit.placeholder, Option.none⟩ => some f.1
    | _ => Option.none)
  let whereCols ← match u.where_clause with
    | some wc => get_parameter_columns_recurse wc
    | Option.none => .ok []
  .ok (setCols ++ whereCols)

/-- Number of placeholder markers in a condition tree. -/
def condPlaceholderCount : CondExpr → Nat
  | .comparisonOp _ l r => condPlaceholderCount l + condPlaceholderCount r
  | .logicalOp _ l r => condPlaceholderCount l + condPlaceholderCount r
  | .negationOp e => condPlaceholderCount e
  | .bracketed e => condPlaceholderCount e
  | .base (.literal Lit.placeholder) => 1
  | .base (.literalList ls) => ls.countP (fun l => l == Lit.placeholder)
  | .base _ => 0

/-- Number of placeholder markers on the right-hand side of one `SET`
assignment. -/
def fvPlaceholderCount : FieldValueExpression → Nat
  | .literal ⟨Lit.placeholder, _⟩ => 1
  | .literal _ => 0
  | .arithmetic ⟨_, l, r, _⟩ =>
      (match l with | .scalar Lit.placeholder => 1 | _ => 0) +
      (match r with | .scalar Lit.placeholder => 1 | _ => 0)

/-- Number of placeholder markers in an `UPDATE` statement (`SET` sides
plus WHERE tree); per the spec's contract the Parameter Locator is meant
to return one column per placeholder. -/
def updatePlaceholderCount (u : UpdateStatement) : Nat :=
  (u.fields.map (fun f => fvPlaceholderCount f.2)).sum +
    (match u.where_clause with
     | some wc => condPlaceholderCount wc
     | Option.none => 0)

/-! Concrete instances used by the claim theorems. -/

/-- Column `T.a`. -/
def Ta : Column := ⟨some "T", "a"⟩

/-- Column `T.b`. -/
def Tb : Column := ⟨some "T", "b"⟩

/-- Column `T.c`. -/
def Tc : Column := ⟨some "T", "c"⟩

/-- `Field(c) = Literal(l)`. -/
def eqFL (c : Column) (l : Lit) : CondExpr :=
  .comparisonOp .equal (.base (.field c)) (.base (.literal l))

/-- Logical `AND`. -/
def andE (l r : CondExpr) : CondExpr := .logicalOp .andOp l r

/-- Logical `OR`. -/
def orE (l r : CondExpr) : CondExpr := .logicalOp .orOp l r

/-- The tautological comparison `1 = 1`. -/
def oneEqOne : CondExpr :=
  .comparisonOp .equal (.base (.literal (.int 1))) (.base (.literal (.int 1)))

/-- Schema `T (a, b, c)` with `c` the primary key. -/
def schemaABC : CreateTableStatement :=
  ⟨[⟨Ta, []⟩, ⟨Tb, []⟩, ⟨Tc, [.primaryKey]⟩], Option.none⟩

/-- `UPDATE T SET c = ?, a = 5, b = b + 3 WHERE c = 7`: the `SET` entries
are deliberately not in schema order. -/
def updABC : UpdateStatement :=
  ⟨[(Tc, .literal ⟨.placeholder, Option.none⟩),
    (Ta, .literal ⟨.int 5, Option.none⟩),
    (Tb, .arithmetic ⟨.add, .column Tb, .scalar (.int 3), Option.none⟩)],
   some (eqFL Tc (.int 7))⟩

/-- The modification list `extract_update_params_and_fields` produces for
`updABC` with parameter stream `[9]`. -/
def updABCResult : List (Nat × Modification) :=
  [(0, .set (.int 5)), (1, .apply .add (.int 3)), (2, .set (.int 9))]

/-- `UPDATE T SET b = b - 4 WHERE c = 7` (subtraction form). -/
def updSub : UpdateStatement :=
  ⟨[(Tb, .arithmetic ⟨.subtract, .column Tb, .scalar (.int 4), Option.none⟩)],
   some (eqFL Tc (.int 7))⟩

/-- `UPDATE T SET b = b * 2 WHERE c = 7` (unsupported arithmetic). -/
def updMul : UpdateStatement :=
  ⟨[(Tb, .arithmetic ⟨.multiply, .column Tb, .scalar (.int 2), Option.none⟩)],
   some (eqFL Tc (.int 7))⟩

/-- `UPDATE T SET b = a + 1 WHERE c = 7` (arithmetic whose column is not
the field being processed). -/
def updWrongCol : UpdateStatement :=
  ⟨[(Tb, .arithmetic ⟨.add, .column Ta, .scalar (.int 1), Option.none⟩)],
   some (eqFL Tc (.int 7))⟩

/-- `UPDATE T SET <nothing> WHERE a > ?`: one placeholder under a
non-equality comparison operator. -/
def updGreater : UpdateStatement :=
  ⟨[], some (.comparisonOp .greater (.base (.field Ta)) (.base (.literal .placeholder)))⟩

/-- Schema `T (a)` with `a` the primary key. -/
def schemaA : CreateTableStatement := ⟨[⟨Ta, [.primaryKey]⟩], Option.none⟩

/-! Helper lemmas. -/

/-- Unfolding of the `LogicalAnd` case of `do_flatten_conditional`. -/
theorem do_flatten_and_eq (l r : CondExpr) (pkey : List Column) (s : KeySet) :
    do_flatten_conditional (.logicalOp .andOp l r) pkey s =
      match do_flatten_conditional l pkey s with
      | .error e => .error e
      | .ok (false, s1) => .ok (false, s1)
      | .ok (true, s1) =>
          match do_flatten_conditional r pkey s1 with
          | .error e => .error e
          | .ok (vr, s2) =>
              .ok (vr && (decide (s.length = s2.length) || decide (s1.length = s2.length)), s2) := by
  simp only [do_flatten_conditional, Bind.bind, Except.bind]
  cases h : do_flatten_conditional l pkey s with
  | error e => rfl
  | ok p =>
    obtain ⟨vl, s1⟩ := p
    cases vl with
    | false => rfl
    | true =>
      simp only [if_true]
      cases hr : do_flatten_conditional r pkey s1 with
      | error e => rfl
      | ok q => rfl

/-- Unfolding of the `LogicalOr` case of `do_flatten_conditional`. -/
theorem do_flatten_or_eq (l r : CondExpr) (pkey : List Column) (s : KeySet) :
    do_flatten_conditional (.logicalOp .orOp l r) pkey s =
      match do_flatten_conditional l pkey s with
      | .error e => .error e
      | .ok (false, s1) => .ok (false, s1)
      | .ok (true, s1) => do_flatten_conditional r pkey s1 := by
  simp only [do_flatten_conditional, Bind.bind, Except.bind]
  cases h : do_flatten_conditional l pkey s with
  | error e => rfl
  | ok p =>
    obtain ⟨vl, s1⟩ := p
    cases vl with
    | false => rfl
    | true => simp only [if_true]

/-- Every tuple surviving the final length check of `flatten_conditional`
covers the whole primary key. -/
theorem flatten_check_loop (pkey : List Column) :
    ∀ (fl : KeySet) (acc keys : List (List DataType)),
      List.mapM.loop (fun key =>
          if key.length = pkey.length then Except.ok (key.map Prod.snd)
          else Except.error Err.incompleteCompoundKey) fl acc = .ok keys →
      (∀ k ∈ acc, k.length = pkey.length) → ∀ k ∈ keys, k.length = pkey.length
  | [], acc, keys, h, hacc => by
      simp only [List.mapM.loop, pure, Except.pure, Except.ok.injEq] at h
      subst h
      intro k hk
      exact hacc k (by simpa using hk)
  | a :: t, acc, keys, h, hacc => by
      simp only [List.mapM.loop, Bind.bind, Except.bind] at h
      by_cases hl : a.length = pkey.length
      · rw [if_pos hl] at h
        refine flatten_check_loop pkey t _ keys h ?_
        intro k hk
        rcases List.mem_cons.1 hk with hk | hk
        · subst hk; simpa using hl
        · exact hacc k hk
      · rw [if_neg hl] at h
        exact absurd h (by simp)

/-- `Vec::swap_remove` only ever removes elements. -/
theorem mem_swapRemove {α : Type} (l : List α) (i : Nat) (x : α)
    (h : x ∈ swapRemove l i) : x ∈ l := by
  unfold swapRemove at h
  cases hl : l.getLast? with
  | none => rw [hl] at h; exact h
  | some last =>
    rw [hl] at h
    rcases List.mem_or_eq_of_mem_set (List.Sublist.mem h (List.dropLast_sublist _)) with h2 | h2
    · exact h2
    · subst h2; exact List.mem_of_mem_getLast? hl

/-- A hit of `findSetEntry` is an element of the `SET` list with the
requested column name. -/
theorem findSetEntry_mem (name : String) :
    ∀ (qf : List (Column × FieldValueExpression)) (i : Nat) (e : Column × FieldValueExpression),
      findSetEntry name qf = some (i, e) → e ∈ qf ∧ e.1.name = name
  | [], i, e, h => by simp [findSetEntry] at h
  | f :: rest, i, e, h => by
      simp only [findSetEntry] at h
      by_cases hf : f.1.name == name
      · rw [if_pos hf] at h
        simp only [Option.some.injEq, Prod.mk.injEq] at h
        obtain ⟨_, he⟩ := h
        subst he
        exact ⟨List.mem_cons_self _ _, by simpa using hf⟩
      · rw [if_neg hf] at h
        cases hr : findSetEntry name rest with
        | none => rw [hr] at h; simp at h
        | some p =>
          rw [hr] at h
          simp only [Option.map_some', Option.some.injEq, Prod.mk.injEq] at h
          obtain ⟨_, he⟩ := h
          have := findSetEntry_mem name rest p.1 p.2 (by rw [hr])
          subst he
          exact ⟨List.mem_cons_of_mem _ this.1, this.2⟩

/-- Invariant of the schema-field loop of
`extract_update_params_and_fields`: emitted indices are strictly
increasing with base `i`, and every emitted index points at a schema field
that had a matching `SET` entry in the loop's `SET` list. -/
theorem extractLoop_spec :
    ∀ (sf : List ColumnSpecification) (i : Nat)
      (qf : List (Column × FieldValueExpression)) (ps : Params)
      (ups : List (Nat × Modification))
      (qf' : List (Column × FieldValueExpression)) (ps' : Params),
      extractLoop i sf qf ps = .ok (ups, qf', ps') →
        List.Pairwise (fun p q => p.1 < q.1) ups ∧
        ∀ p ∈ ups, i ≤ p.1 ∧ ∃ fld, sf.get? (p.1 - i) = some fld ∧
          ∃ e ∈ qf, e.1.name = fld.column.name
  | [], i, qf, ps, ups, qf', ps', h => by
      simp only [extractLoop, Except.ok.injEq, Prod.mk.injEq] at h
      obtain ⟨h1, -, -⟩ := h
      subst h1
      simp
  | field :: rest, i, qf, ps, ups, qf', ps', h => by
      simp only [extractLoop] at h
      cases hfind : findSetEntry field.column.name qf with
      | none =>
        rw [hfind] at h
        obtain ⟨ih1, ih2⟩ := extractLoop_spec rest (i + 1) qf ps ups qf' ps' h
        refine ⟨ih1, fun p hp => ?_⟩
        obtain ⟨hle, fld, hget, e, he, hname⟩ := ih2 p hp
        have hk : p.1 - i = (p.1 - (i + 1)) + 1 := by omega
        exact ⟨by omega, fld, by rw [hk, List.get?_cons_succ]; exact hget, e, he, hname⟩
      | some se =>
        obtain ⟨sets, entry⟩ := se
        rw [hfind] at h
        simp only [Bind.bind, Except.bind] at h
        cases hproc : processSetEntry field entry.2 ps with
        | error e => rw [hproc] at h; exact absurd h (by simp)
        | ok mp =>
          obtain ⟨m, ps1⟩ := mp
          rw [hproc] at h
          dsimp only at h
          cases hrec : extractLoop (i + 1) rest (swapRemove qf sets) ps1 with
          | error e => rw [hrec] at h; exact absurd h (by simp)
          | ok rp =>
            obtain ⟨updates, qf2, ps2⟩ := rp
            rw [hrec] at h
            simp only [Except.ok.injEq, Prod.mk.injEq] at h
            obtain ⟨h1, -, -⟩ := h
            subst h1
            obtain ⟨ih1, ih2⟩ :=
              extractLoop_spec rest (i + 1) (swapRemove qf sets) ps1 updates qf2 ps2 hrec
            have hentry := findSetEntry_mem field.column.name qf sets entry hfind
            constructor
            · refine List.pairwise_cons.2 ⟨fun q hq => ?_, ih1⟩
              have := (ih2 q hq).1
              omega
            · intro p hp
              rcases List.mem_cons.1 hp with hp | hp
              · subst hp
                exact ⟨le_refl _, field, by simp, entry, hentry.1, hentry.2⟩
              · obtain ⟨hle, fld, hget, e, he, hname⟩ := ih2 p hp
                have hk : p.1 - i = (p.1 - (i + 1)) + 1 := by omega
                exact ⟨by omega, fld, by rw [hk, List.get?_cons_succ]; exact hget,
                  e, mem_swapRemove qf sets e he, hname⟩

/-! Claim theorems. -/

/-- Claim C1, counterexample: the claim says key tuples come out in
primary-key (schema-declaration) order, so that on the compound key
`(a, b)` flattening `WHERE b = 2 AND a = 1` yields the tuple `[1, 2]`.
In fact `do_flatten_conditional` pushes each value onto the tuple in the
order the WHERE clause supplies the columns, and `flatten_conditional`
returns the values in that push order, so this input yields `[2, 1]`,
not `[1, 2]`. -/
theorem C1_counterexample :
    flatten_conditional (andE (eqFL Tb (.int 2)) (eqFL Ta (.int 1))) [Ta, Tb] =
      .ok (some [[DataType.int 2, DataType.int 1]]) ∧
    [[DataType.int 2, DataType.int 1]] ≠ [[DataType.int 1, DataType.int 2]] :=
  ⟨by rfl, by decide⟩

/-- Claim C1, amended: for the compound key `(a, b)`, flattening
`WHERE b = v2 AND a = v1` yields the single key tuple `[v2, v1]` for any
integer literals `v1`, `v2` — so returned key tuples are not in
primary-key (schema-declaration) order in general, contrary to the
original claim's `[1, 2]` for `WHERE b = 2 AND a = 1`. -/
theorem C1_amended (v1 v2 : Int) :
    flatten_conditional (andE (eqFL Tb (.int v2)) (eqFL Ta (.int v1))) [Ta, Tb] =
      .ok (some [[DataType.int v2, DataType.int v1]]) := by
  simp [flatten_conditional, do_flatten_conditional, flattenLeaf, dtOfLit, insertKey,
    removeKey, andE, eqFL, Ta, Tb, List.find?, List.erase, Bind.bind, Except.bind,
    List.mapM, List.mapM.loop, pure, Except.pure]

/-- Claim C2: a `LogicalAnd(l, r)` node flattens as valid exactly when
flattening `l` is valid, flattening `r` (from the state `l` produced) is
valid, and the working-set size after the right recursion equals its size
either before `l` was processed or after `l` was processed; consequently,
on the single-column key `{a}`, `a = 1 AND a = 2` returns `None` while
`a = 1 AND a = 1` returns `{[1]}`. -/
theorem C2_and_validity :
    (∀ (l r : CondExpr) (pkey : List Column) (s s' : KeySet),
      do_flatten_conditional (.logicalOp .andOp l r) pkey s = .ok (true, s') ↔
        ∃ s1, do_flatten_conditional l pkey s = .ok (true, s1) ∧
          do_flatten_conditional r pkey s1 = .ok (true, s') ∧
          (s.length = s'.length ∨ s1.length = s'.length)) ∧
    flatten_conditional (andE (eqFL Ta (.int 1)) (eqFL Ta (.int 2))) [Ta] = .ok Option.none ∧
    flatten_conditional (andE (eqFL Ta (.int 1)) (eqFL Ta (.int 1))) [Ta] =
      .ok (some [[DataType.int 1]]) := by
  refine ⟨fun l r pkey s s' => ?_, by rfl, by rfl⟩
  rw [do_flatten_and_eq]
  cases hl : do_flatten_conditional l pkey s with
  | error e => simp
  | ok p =>
    obtain ⟨vl, s1⟩ := p
    cases vl with
    | false => simp
    | true =>
      cases hr : do_flatten_conditional r pkey s1 with
      | error e => simp [hr]
      | ok q =>
        obtain ⟨vr, s2⟩ := q
        simp only [hl, hr, Except.ok.injEq, Prod.mk.injEq, true_and, Bool.and_eq_true,
          Bool.or_eq_true, decide_eq_true_eq, exists_eq_left']
        constructor
        · rintro ⟨⟨hvr, hor⟩, rfl⟩
          exact ⟨⟨hvr, rfl⟩, hor⟩
        · rintro ⟨⟨hvr, rfl⟩, hor⟩
          exact ⟨⟨hvr, hor⟩, rfl⟩

/-- Claim C3: an equality leaf between a field `c` and a literal (either
orientation) whose field is not a primary-key column makes the flattening
fail fatally with the non-key-predicate panic — not return an invalid
(`None`) verdict; `flatten_conditional` (the shared WHERE reduction for
both UPDATE and DELETE) propagates the failure.  In particular, key `{a}`
with predicate `b = 1` is fatal (see the witness). -/
theorem C3_nonkey_fatal (pkey : List Column) (c : Column) (l : Lit) (s : KeySet)
    (h : c ∉ pkey) :
    do_flatten_conditional (.comparisonOp .equal (.base (.field c)) (.base (.literal l)))
        pkey s = .error .nonKeyPredicate ∧
    do_flatten_conditional (.comparisonOp .equal (.base (.literal l)) (.base (.field c)))
        pkey s = .error .nonKeyPredicate ∧
    flatten_conditional (.comparisonOp .equal (.base (.field c)) (.base (.literal l)))
        pkey = .error .nonKeyPredicate := by
  refine ⟨?_, ?_, ?_⟩ <;>
    simp [do_flatten_conditional, flatten_conditional, flattenLeaf, h, Bind.bind, Except.bind]

/-- Witness for C3: key `{a}`, predicate `b = 1` (column `b` outside the
key) makes `flatten_conditional` fail with the non-key-predicate error. -/
theorem C3_witness :
    Tb ∉ [Ta] ∧
    flatten_conditional (eqFL Tb (.int 1)) [Ta] = .error .nonKeyPredicate :=
  ⟨by decide, (C3_nonkey_fatal [Ta] Tb (.int 1) [] (by decide)).2.2⟩

/-- Claim C4: whenever `flatten_conditional` returns `Some(keys)`, every
tuple in `keys` has exactly `len(primary_key)` entries; a tuple covering
only part of a compound key is the fatal incomplete-compound-key error
instead, never silently dropped or returned short — e.g. key `{a, b}`
with only `a = 1` supplied. -/
theorem C4_full_tuples :
    (∀ (cond : CondExpr) (pkey : List Column) (keys : List (List DataType)),
      flatten_conditional cond pkey = .ok (some keys) →
        ∀ k ∈ keys, k.length = pkey.length) ∧
    flatten_conditional (eqFL Ta (.int 1)) [Ta, Tb] = .error .incompleteCompoundKey := by
  refine ⟨?_, by rfl⟩
  intro cond pkey keys h k hk
  unfold flatten_conditional at h
  cases hdf : do_flatten_conditional cond pkey [] with
  | error e => rw [hdf] at h; simp [Bind.bind, Except.bind] at h
  | ok p =>
    obtain ⟨valid, fl⟩ := p
    rw [hdf] at h
    simp only [Bind.bind, Except.bind] at h
    cases valid with
    | false => simp at h
    | true =>
      simp only [if_true] at h
      cases hm : List.mapM (fun key =>
          if key.length = pkey.length then Except.ok (key.map Prod.snd)
          else Except.error Err.incompleteCompoundKey) fl with
      | error e => rw [hm] at h; simp at h
      | ok ks =>
        rw [hm] at h
        simp only [Except.ok.injEq, Option.some.injEq] at h
        subst h
        simp only [List.mapM] at hm
        exact flatten_check_loop pkey fl [] ks hm (by simp) k hk

/-- Witness for C4: `a = 1` on the single-column key `{a}` flattens to
the tuple `[1]`, which indeed has the key's length. -/
theorem C4_witness : [DataType.int 1].length = [Ta].length :=
  C4_full_tuples.1 (eqFL Ta (.int 1)) [Ta] [[DataType.int 1]] (by rfl)
    [DataType.int 1] (by decide)

/-- Claim C5, counterexample: the claim says a `LogicalOr(l, r)` node
recurses on both sides unconditionally.  In fact the Rust `&&`
short-circuits: on key `{a}`, the left side `2 = 3` is invalid (but not
fatal), and the right side `b = 1` would be the fatal non-key panic if it
were visited — yet the whole `2 = 3 OR b = 1` returns `None` rather than
the fatal error, so the right side was never recursed. -/
theorem C5_counterexample :
    do_flatten_conditional
        (.comparisonOp .equal (.base (.literal (.int 2))) (.base (.literal (.int 3))))
        [Ta] [] = .ok (false, []) ∧
    do_flatten_conditional (eqFL Tb (.int 1)) [Ta] [] = .error .nonKeyPredicate ∧
    flatten_conditional
        (orE (.comparisonOp .equal (.base (.literal (.int 2))) (.base (.literal (.int 3))))
          (eqFL Tb (.int 1)))
        [Ta] = .ok Option.none :=
  ⟨rfl, rfl, rfl⟩

/-- Claim C5, amended: a `LogicalOr(l, r)` node recurses on `l` and — only
when `l` is valid — on `r` (the `&&` short-circuit: an invalid left child
makes the node invalid without visiting the right child); the node
flattens as valid exactly when both sides flatten as valid (the right side
walked from the left side's resulting working set), with tuples
accumulating under set semantics: `a = 1 OR a = 2` yields `{[1], [2]}`,
`a = 1 OR a = 1` deduplicates to `{[1]}`; the tautological literal
equality `1 = 1` is valid and leaves the working set unchanged, so
`a = 1 AND 1 = 1` yields `{[1]}`. -/
theorem C5_or_validity :
    (∀ (l r : CondExpr) (pkey : List Column) (s s' : KeySet),
      do_flatten_conditional (.logicalOp .orOp l r) pkey s = .ok (true, s') ↔
        ∃ s1, do_flatten_conditional l pkey s = .ok (true, s1) ∧
          do_flatten_conditional r pkey s1 = .ok (true, s')) ∧
    (∀ (l r : CondExpr) (pkey : List Column) (s s1 : KeySet),
      do_flatten_conditional l pkey s = .ok (false, s1) →
        do_flatten_conditional (.logicalOp .orOp l r) pkey s = .ok (false, s1)) ∧
    flatten_conditional (orE (eqFL Ta (.int 1)) (eqFL Ta (.int 2))) [Ta] =
      .ok (some [[DataType.int 1], [DataType.int 2]]) ∧
    flatten_conditional (orE (eqFL Ta (.int 1)) (eqFL Ta (.int 1))) [Ta] =
      .ok (some [[DataType.int 1]]) ∧
    (∀ s : KeySet, do_flatten_conditional oneEqOne [Ta] s = .ok (true, s)) ∧
    flatten_conditional (andE (eqFL Ta (.int 1)) oneEqOne) [Ta] =
      .ok (some [[DataType.int 1]]) := by
  refine ⟨fun l r pkey s s' => ?_, fun l r pkey s s1 h => by rw [do_flatten_or_eq, h],
    by rfl, by rfl, fun s => by rfl, by rfl⟩
  rw [do_flatten_or_eq]
  cases hl : do_flatten_conditional l pkey s with
  | error e => simp
  | ok p =>
    obtain ⟨vl, s1⟩ := p
    cases vl with
    | false => simp
    | true => simp

/-- Witness for C5: the invalid-but-not-fatal left side `2 = 3` makes the
whole `OR` invalid without the (would-be fatal) right side `b = 1` being
visited. -/
theorem C5_witness :
    do_flatten_conditional
        (.logicalOp .orOp
          (.comparisonOp .equal (.base (.literal (.int 2))) (.base (.literal (.int 3))))
          (eqFL Tb (.int 1)))
        [Ta] [] = .ok (false, []) :=
  C5_or_validity.2.1
    (.comparisonOp .equal (.base (.literal (.int 2))) (.base (.literal (.int 3))))
    (eqFL Tb (.int 1)) [Ta] [] [] rfl

/-- Claim C6: the Update Modification Extractor's output is ordered by
schema column order (strictly increasing field indices, because it
iterates the schema rather than the statement's `SET` order), each emitted
pair points at a schema field that has a `SET` entry with the same column
name, and the three supported right-hand sides produce `Set(param)` (bare
placeholder, consuming the next parameter), `Set(literal)` and
`Apply(Add|Subtract, scalar)` respectively, while any other right-hand
side shape is fatal — shown concretely on `SET c = ?, a = 5, b = b + 3`
against schema `(a, b, c)` (note the `SET`-clause order differs from the
emitted schema order), on `SET b = b - 4`, on the unsupported
`SET b = b * 2` and on `SET b = a + 1` whose arithmetic column is not the
field being processed.  Fields with no matching `SET` entry produce no
pair (contrapositive of the matching-entry conjunct). -/
theorem C6_extract_modifications :
    (∀ (q : UpdateStatement) (params : Params) (schema : CreateTableStatement)
        (ups : List (Nat × Modification)) (qf' : List (Column × FieldValueExpression))
        (ps' : Params),
      extract_update_params_and_fields q params schema = .ok (ups, qf', ps') →
        List.Pairwise (fun p q => p.1 < q.1) ups ∧
        ∀ p ∈ ups, ∃ fld, schema.fields.get? p.1 = some fld ∧
          ∃ e ∈ q.fields, e.1.name = fld.column.name) ∧
    extract_update_params_and_fields updABC (some [.int 9]) schemaABC =
      .ok (updABCResult, [], some []) ∧
    extract_update_params_and_fields updSub Option.none schemaABC =
      .ok ([(1, .apply .sub (.int 4))], [], Option.none) ∧
    extract_update_params_and_fields updMul Option.none schemaABC = .error .unsupportedSet ∧
    extract_update_params_and_fields updWrongCol Option.none schemaABC =
      .error .setColumnMismatch := by
  refine ⟨?_, rfl, rfl, rfl, rfl⟩
  intro q params schema ups qf' ps' h
  obtain ⟨h1, h2⟩ := extractLoop_spec schema.fields 0 q.fields params ups qf' ps' h
  refine ⟨h1, fun p hp => ?_⟩
  obtain ⟨-, fld, hget, he⟩ := h2 p hp
  exact ⟨fld, by simpa using hget, he⟩

/-- Witness for C6: the concrete extraction for `updABC` satisfies the
strictly-increasing schema-order property. -/
theorem C6_witness :
    List.Pairwise (fun p q => p.1 < q.1) updABCResult :=
  (C6_extract_modifications.1 updABC (some [.int 9]) schemaABC updABCResult [] (some [])
    rfl).1

/-- Claim C7, counterexample: the claim concludes that every placeholder
gets exactly one column.  The `UPDATE` statement with WHERE clause
`a > ?` contains one placeholder, yet the Parameter Locator returns no
column for it (a non-equality comparison of a field against a literal —
placeholder included — yields nothing in the walk). -/
theorem C7_counterexample :
    get_parameter_columns (.update updGreater) = .ok [] ∧
    updatePlaceholderCount updGreater = 1 :=
  ⟨rfl, rfl⟩

/-- Claim C7, amended: for every `UPDATE` statement the Parameter Locator
returns exactly the concatenation of (a) one column per `SET` assignment
whose right-hand side is a bare placeholder literal, in `SET`-clause
order, followed by (b) the columns found by the WHERE-tree walk used for
`SELECT` — where a field-equals-placeholder leaf yields its field, an
all-placeholder `IN` list yields the field once per element, but a
non-equality comparison against a placeholder yields no column (so not
every placeholder receives a column). -/
theorem C7_amended :
    (∀ u : UpdateStatement, get_parameter_columns (.update u) = locateParametersUpdateSpec u) ∧
    (∀ c : Column, get_parameter_columns_recurse
        (.comparisonOp .equal (.base (.field c)) (.base (.literal .placeholder))) = .ok [c]) ∧
    (∀ (c : Column) (n : Nat), get_parameter_columns_recurse
        (.comparisonOp .inOp (.base (.field c))
          (.base (.literalList (List.replicate n .placeholder)))) =
        .ok (List.replicate n c)) ∧
    (∀ c : Column, get_parameter_columns_recurse
        (.comparisonOp .greater (.base (.field c)) (.base (.literal .placeholder))) = .ok []) := by
  refine ⟨fun u => rfl, fun c => rfl, fun c n => ?_, fun c => rfl⟩
  simp [get_parameter_columns_recurse, List.all_eq_true, List.mem_replicate]

/-- Claim C8 (code bug): the claim — with the spec — says `sanitize_query`
strips `/* ... */` and `--` comments and collapses runs of spaces.  The
code's comment-stripping loop discards the results of its `replace_all`
calls, so comments are NOT removed: on `"SELECT  1  /* hi */"` the code
returns `"SELECT 1 /* hi */"` (spaces collapsed, comment intact) where the
spec-intended sanitizer returns `"SELECT 1"`, and similarly for a `--`
line comment; space collapsing, quote replacement and trimming do work. -/
theorem C8_sanitize_divergence :
    sanitize_query "SELECT  1  /* hi */" = "SELECT 1 /* hi */" ∧
    sanitize_query_spec "SELECT  1  /* hi */" = "SELECT 1" ∧
    sanitize_query " x  -- c\ny " = "x -- c\ny" ∧
    sanitize_query_spec " x  -- c\ny " = "x \ny" ∧
    sanitize_query "a  \"b\"  " = "a 'b'" :=
  ⟨rfl, rfl, rfl, rfl, rfl⟩

/-- Claim C10: the UPDATE-path WHERE walk (`walk_update_where`) rejects a
second equality predicate on a column name already in its map — even with
identical values — via the failed `assert!(oldv.is_none())`, so
`a = 1 AND a = 1` is fatal through `extract_update`; the general flattener
(`flatten_conditional`) accepts the identical duplicate and returns
`{[1]}`, making the UPDATE-path walk strictly less permissive. -/
theorem C10_update_walk_duplicate :
    (∀ (col2v : ColToVal) (params : Params) (c : Column) (n : Int),
        (col2v.find? (fun p => p.1 == c.name)).isSome = true →
        walk_update_where col2v params (eqFL c (.int n)) = .error .duplicateWhereColumn) ∧
    walk_update_where [] (some [])
        (andE (eqFL Ta (.int 1)) (eqFL Ta (.int 1))) = .error .duplicateWhereColumn ∧
    extract_update ⟨[], some (andE (eqFL Ta (.int 1)) (eqFL Ta (.int 1)))⟩ Option.none
        schemaA = .error .duplicateWhereColumn ∧
    flatten_conditional (andE (eqFL Ta (.int 1)) (eqFL Ta (.int 1))) [Ta] =
      .ok (some [[DataType.int 1]]) := by
  refine ⟨?_, rfl, rfl, rfl⟩
  intro col2v params c n h
  simp [walk_update_where, eqFL, dtOfLit, h, Bind.bind, Except.bind]

/-- Witness for C10: a map already containing column name `a` makes the
walk of a further `a = 2` leaf fatal. -/
theorem C10_witness :
    (([(("a" : String), DataType.int 1)]).find? (fun p => p.1 == Ta.name)).isSome = true ∧
    walk_update_where [(("a" : String), DataType.int 1)] Option.none (eqFL Ta (.int 2)) =
      .error .duplicateWhereColumn :=
  ⟨rfl, C10_update_walk_duplicate.1 [(("a" : String), DataType.int 1)] Option.none Ta 2 rfl⟩
